import Mathlib

/-!
Shallow embedding of `src/lib/rules/no-restricted-imports.js` (an ESLint rule
restricting module imports by exact source path and by glob-style pattern),
together with proofs of the specified properties.

Modelling conventions:
* Source locations (`loc` fields of AST nodes / tokens) are abstracted as
  natural numbers; the engine only copies them into diagnostics.
* The JS `Map` used for `importNames` and the plain object used for
  `restrictedPathMessages` are modelled as association lists preserving
  insertion order, with the exact `has`/`get`/`set`/`push` and
  `hasOwnProperty`/index-assignment semantics the source uses.
* The external `ignore` library's compiled matcher (`matcher.ignores`) is
  abstracted as a boolean function on strings; pattern compilation takes the
  compile function as a parameter.
* `context.report` accumulates into a list of `Report` records carrying the
  same `messageId`, `loc` and `data` fields the source passes.
* A thrown JS `TypeError` is modelled as the `error` component of
  `CheckResult`: reports emitted before the throw are kept and an error
  message is recorded.
-/

namespace NoRestrictedImports

/-- Source positions, abstracted: the rule only moves them around. -/
abbrev Loc := Nat

/-- The JS source builds `const specifierData = { loc: specifier.loc }`. -/
structure SpecifierData where
  loc : Loc
deriving DecidableEq, Repr

/-- The `importNames` JS `Map<string, Object[]>`, as an insertion-ordered
association list. -/
abbrev NameMap := List (String × List SpecifierData)

/-- `importNames.has(n)`/`importNames.get(n)` combined: `none` when absent. -/
def mapGet : NameMap → String → Option (List SpecifierData)
  | [], _ => none
  | (k, l) :: rest, n => if k = n then some l else mapGet rest n

/-- `importNames.get(name).push(d)` when the key exists, otherwise
`importNames.set(name, [d])` (new keys go to the end, as in a JS `Map`). -/
def mapPush : NameMap → String → SpecifierData → NameMap
  | [], n, d => [(n, [d])]
  | (k, l) :: rest, n, d =>
    if k = n then (k, l ++ [d]) :: rest else (k, l) :: mapPush rest n d

/-- One value of the `restrictedPathMessages` table:
`{ message: ..., importNames: ... }`.  `none` models JS `null`/`undefined`. -/
structure PathRuleEntry where
  message : Option String
  importNames : Option (List String)
deriving DecidableEq, Repr

/-- The `restrictedPathMessages` plain JS object, as an insertion-ordered
association list. -/
abbrev PathTable := List (String × PathRuleEntry)

/-- `Object.prototype.hasOwnProperty.call(table, k)` plus the property read. -/
def tableGet : PathTable → String → Option PathRuleEntry
  | [], _ => none
  | (k, v) :: rest, n => if k = n then some v else tableGet rest n

/-- `memo[k] = v` on a plain object: overwrite in place if the key exists,
else append. -/
def objSet : PathTable → String → PathRuleEntry → PathTable
  | [], n, v => [(n, v)]
  | (k, w) :: rest, n, v =>
    if k = n then (k, v) :: rest else (k, w) :: objSet rest n v

/-- One element of the `restrictedPaths` option list: either a plain source
string or an object `{name, message?, importNames?}`. -/
inductive PathRuleConfig
  | str (name : String)
  | obj (name : String) (message : Option String)
      (importNames : Option (List String))
deriving DecidableEq, Repr

/-- The `restrictedPaths.reduce(...)` building `restrictedPathMessages`
(source lines 116-126): a string entry stores `{ message: null }` (no
`importNames` property); an object entry stores its `message` and
`importNames` fields; assignment to an existing key overwrites it. -/
def restrictedPathMessages (restrictedPaths : List PathRuleConfig) : PathTable :=
  restrictedPaths.foldl
    (fun memo importSource =>
      match importSource with
      | .str s => objSet memo s { message := none, importNames := none }
      | .obj name message importNames =>
          objSet memo name { message, importNames })
    []

/-- One element of the `restrictedPatterns` option list. -/
inductive PatternConfig
  | str (pattern : String)
  | obj (pattern : String) (message : Option String)
deriving Repr

/-- One compiled entry of `restrictedPatternMatchers`: the matcher is the
external `ignore` library's `matcher.ignores`, abstracted as a predicate. -/
structure PatternMatcher where
  matcher : String → Bool
  pattern : String
  message : Option String

/-- `restrictedPatterns.map(...)` (source lines 128-145); `compile` stands for
`pattern => ignore().add(pattern)`. -/
def restrictedPatternMatchers (compile : String → String → Bool)
    (restrictedPatterns : List PatternConfig) : List PatternMatcher :=
  restrictedPatterns.map fun patternObj =>
    match patternObj with
    | .str p => { matcher := compile p, pattern := p, message := none }
    | .obj p m => { matcher := compile p, pattern := p, message := m }

/-- JS truthiness of the `message`/`customMessage` value: `null`/`undefined`
and the empty string are falsy, every other string is truthy. -/
def strTruthy : Option String → Bool
  | none => false
  | some s => s != ""

/-- The `messageId` values of the rule's `meta.messages` table. -/
inductive MessageId
  | path
  | pathWithCustomMessage
  | patterns
  | patternWithCustomMessage
  | everything
  | everythingWithCustomMessage
  | importName
  | importNameWithCustomMessage
deriving DecidableEq, Repr

/-- One `context.report({...})` call: the node, the `messageId`, the optional
explicit `loc` override, and the `data` fields actually passed. -/
structure Report where
  node : Loc
  messageId : MessageId
  loc : Option Loc := none
  importSource : String
  importNames : Option (List String) := none
  importName : Option String := none
  customMessage : Option String := none
deriving DecidableEq, Repr

/-- Outcome of running a checker function: the reports emitted (in order) and,
when the JS code would throw, the `TypeError` it raises. -/
structure CheckResult where
  reports : List Report
  error : Option String
deriving DecidableEq, Repr

/-- The message of the `TypeError` raised by reading a property of
`undefined`. -/
def typeErrorUndefined : String :=
  "TypeError: Cannot read properties of undefined"

/-- JS `String.prototype.trim()`: strip leading and trailing whitespace
(defined on character lists so that it evaluates by kernel reduction). -/
def jsTrim (s : String) : String :=
  ⟨((s.data.dropWhile Char.isWhitespace).reverse.dropWhile Char.isWhitespace).reverse⟩

/-- The report of the `importNames.has("*")` branch (source lines 167-176):
`messageId` `everything`/`everythingWithCustomMessage`, located at the given
specifier occurrence, with the rule's whole restricted-name list in `data`. -/
def everythingReport (customMessage : Option String)
    (restrictedImportNames : List String) (importSource : String) (node : Loc)
    (specifierData : SpecifierData) : Report :=
  { node,
    messageId := if strTruthy customMessage then
      MessageId.everythingWithCustomMessage else MessageId.everything,
    loc := some specifierData.loc,
    importSource,
    importNames := some restrictedImportNames,
    customMessage }

/-- The body of the `restrictedImportNames.forEach` loop for one restricted
name (source lines 179-196): when the occurrence map has the name, one
report per stored occurrence, at that occurrence's location. -/
def importNameReports (customMessage : Option String) (importNames : NameMap)
    (importSource : String) (node : Loc) (restrictedName : String) :
    List Report :=
  match mapGet importNames restrictedName with
  | some specifiers =>
    specifiers.map fun specifier =>
      { node,
        messageId := if strTruthy customMessage then
          MessageId.importNameWithCustomMessage else MessageId.importName,
        loc := some specifier.loc,
        importSource,
        importName := some restrictedName,
        customMessage }
  | none => []

/-- `checkRestrictedPathAndReport(importSource, importNames, node)`
(source lines 155-207), translated clause by clause:
* absent key in `restrictedPathMessages` returns silently;
* a truthy `importNames` rule field (`some` list, even empty) takes the
  name-scoped branch; `null`/`undefined` (`none`) takes the whole-path branch;
* in the name-scoped branch, `importNames.get("*")[0]` is read when the map
  has `"*"`; on an empty occurrence list that read yields `undefined` and the
  subsequent `.loc` access throws (modelled as an error result);
* the `forEach` over the rule's names emits one report per stored occurrence.
-/
def checkRestrictedPathAndReport (table : PathTable) (importSource : String)
    (importNames : NameMap) (node : Loc) : CheckResult :=
  match tableGet table importSource with
  | none => ⟨[], none⟩
  | some entry =>
    let customMessage := entry.message
    match entry.importNames with
    | some restrictedImportNames =>
      match mapGet importNames "*" with
      | some [] => ⟨[], some typeErrorUndefined⟩
      | some (specifierData :: _) =>
        ⟨everythingReport customMessage restrictedImportNames importSource node
            specifierData ::
          restrictedImportNames.flatMap
            (importNameReports customMessage importNames importSource node),
          none⟩
      | none =>
        ⟨restrictedImportNames.flatMap
            (importNameReports customMessage importNames importSource node),
          none⟩
    | none =>
      ⟨[{ node,
          messageId := if strTruthy customMessage then
            MessageId.pathWithCustomMessage else MessageId.path,
          importSource,
          customMessage }], none⟩

/-- `checkRestrictedPatternAndReport(importSource, node)` (source lines
216-236).  `Array.prototype.find` returns `undefined` when nothing matches,
but the source guards with `matchedPattern === null`, which is false for
`undefined`; the no-match path therefore falls through to
`matchedPattern.message` and throws a `TypeError` (modelled as an error
result). -/
def checkRestrictedPatternAndReport (matchers : List PatternMatcher)
    (importSource : String) (node : Loc) : CheckResult :=
  if matchers.length = 0 then ⟨[], none⟩
  else
    match matchers.find? (fun patternMatcher => patternMatcher.matcher importSource) with
    | none => ⟨[], some typeErrorUndefined⟩
    | some matchedPattern =>
      ⟨[{ node,
          messageId := if strTruthy matchedPattern.message then
            MessageId.patternWithCustomMessage else MessageId.patterns,
          importSource,
          customMessage := matchedPattern.message }], none⟩

/-- Specifier node kinds the source distinguishes by `specifier.type`;
`other` covers `ImportSpecifier` and `ExportSpecifier`. -/
inductive SpecifierType
  | importDefaultSpecifier
  | importNamespaceSpecifier
  | other
deriving DecidableEq, Repr

/-- One specifier AST node: its `type` tag, the `imported.name` and
`local.name` strings when those child nodes exist, and its `loc`. -/
structure Specifier where
  type : SpecifierType
  importedName : Option String
  localName : Option String
  loc : Loc
deriving DecidableEq, Repr

/-- Statement kinds reaching `checkNode`. -/
inductive StatementType
  | importDeclaration
  | exportNamedDeclaration
  | exportAllDeclaration
deriving DecidableEq, Repr

/-- One statement AST node as `checkNode` consumes it: `source` is
`node.source.value`, `loc` the node's own location, `specifiers` the
`node.specifiers` list when present, and `starTokenLoc` the location of
`sourceCode.getFirstToken(node, 1)` — the `*` token after `export`. -/
structure Statement where
  type : StatementType
  source : String
  loc : Loc
  specifiers : Option (List Specifier)
  starTokenLoc : Loc
deriving DecidableEq, Repr

/-- The name-derivation chain of `checkNode` (source lines 257-265):
`ImportDefaultSpecifier` → `"default"`, `ImportNamespaceSpecifier` → `"*"`,
else `specifier.imported.name` when `imported` exists, else
`specifier.local.name` when `local` exists, else `undefined`. -/
def specifierName (specifier : Specifier) : Option String :=
  if specifier.type = SpecifierType.importDefaultSpecifier then some "default"
  else if specifier.type = SpecifierType.importNamespaceSpecifier then some "*"
  else match specifier.importedName with
    | some n => some n
    | none => specifier.localName

/-- The per-specifier body of `checkNode`'s loop (source lines 253-274):
derive the name, and under `if (name)` (undefined and `""` are falsy) push
the occurrence into the map. -/
def addSpecifier (importNames : NameMap) (specifier : Specifier) : NameMap :=
  match specifierName specifier with
  | some name =>
    if name = "" then importNames
    else mapPush importNames name { loc := specifier.loc }
  | none => importNames

/-- The `importNames` map `checkNode` builds (source lines 246-275): an
`ExportAllDeclaration` contributes exactly one occurrence under `"*"` at the
star token; otherwise the specifier list is folded in order. -/
def buildImportNames (node : Statement) : NameMap :=
  if node.type = StatementType.exportAllDeclaration then
    [("*", [{ loc := node.starTokenLoc }])]
  else match node.specifiers with
    | some specifiers => specifiers.foldl addSpecifier []
    | none => []

/-- `checkNode(node)` (source lines 244-279): trim the source string, build
the occurrence map, run the path check then the pattern check, concatenating
their reports; a throw in the path check aborts before the pattern check. -/
def checkNode (table : PathTable) (matchers : List PatternMatcher)
    (node : Statement) : CheckResult :=
  let importSource := jsTrim node.source
  let importNames := buildImportNames node
  let pathResult := checkRestrictedPathAndReport table importSource importNames node.loc
  match pathResult.error with
  | some e => ⟨pathResult.reports, some e⟩
  | none =>
    let patternResult := checkRestrictedPatternAndReport matchers importSource node.loc
    ⟨pathResult.reports ++ patternResult.reports, patternResult.error⟩

/-- `create(context)` after option-shape normalization (source lines
108-114): with the `restrictedPaths` and `restrictedPatterns` lists in hand,
an empty/empty configuration registers no visitor (`return {}`, modelled as
`none`); otherwise the per-node checker is returned. -/
def create (restrictedPaths : List PathRuleConfig)
    (restrictedPatterns : List PatternConfig)
    (compile : String → String → Bool) : Option (Statement → CheckResult) :=
  if restrictedPaths.length = 0 ∧ restrictedPatterns.length = 0 then none
  else
    some (checkNode (restrictedPathMessages restrictedPaths)
      (restrictedPatternMatchers compile restrictedPatterns))

/-- A whole analysis session: build the tables once, then visit every
statement in source order; with no registered visitor nothing runs. -/
def runSession (restrictedPaths : List PathRuleConfig)
    (restrictedPatterns : List PatternConfig)
    (compile : String → String → Bool) (statements : List Statement) :
    List Report :=
  match create restrictedPaths restrictedPatterns compile with
  | none => []
  | some checker => (statements.map checker).flatMap (·.reports)

/-! ### Basic lemmas about the table and occurrence-map operations -/

theorem tableGet_objSet (m : PathTable) (k n : String) (v : PathRuleEntry) :
    tableGet (objSet m k v) n = if k = n then some v else tableGet m n := by
  induction m with
  | nil => simp [objSet, tableGet]
  | cons p rest ih =>
    obtain ⟨q, w⟩ := p
    simp only [objSet]
    by_cases hq : q = k
    · subst hq
      by_cases hn : q = n <;> simp [tableGet, hn]
    · simp only [if_neg hq, tableGet, ih]
      by_cases hn : q = n
      · subst hn
        have hkq : ¬ k = q := fun h => hq h.symm
        simp [hkq]
      · simp [hn]

theorem mapGet_mapPush (m : NameMap) (k n : String) (d : SpecifierData) :
    mapGet (mapPush m k d) n =
      if k = n then some ((mapGet m k).getD [] ++ [d]) else mapGet m n := by
  induction m with
  | nil => by_cases hn : k = n <;> simp [mapPush, mapGet, hn]
  | cons p rest ih =>
    obtain ⟨q, l⟩ := p
    simp only [mapPush]
    by_cases hq : q = k
    · subst hq
      by_cases hn : q = n <;> simp [mapGet, hn]
    · simp only [if_neg hq, mapGet, ih]
      by_cases hn : q = n
      · subst hn
        have hkq : ¬ k = q := fun h => hq h.symm
        simp [hkq]
      · simp [hn]

/-- `List.find?` returns the element at the first matching index. -/
theorem find_eq_first {α : Type} (p : α → Bool) (l : List α) (i : Nat)
    (hi : i < l.length) (hmatch : p (l.get ⟨i, hi⟩) = true)
    (hfirst : ∀ j (hj : j < i), p (l.get ⟨j, Nat.lt_trans hj hi⟩) = false) :
    l.find? p = some (l.get ⟨i, hi⟩) := by
  induction l generalizing i with
  | nil => exact absurd hi (Nat.not_lt_zero i)
  | cons a rest ih =>
    cases i with
    | zero => simp_all [List.find?]
    | succ j =>
      have ha : p a = false := hfirst 0 (Nat.succ_pos j)
      have hj : j < rest.length := Nat.lt_of_succ_lt_succ hi
      have := ih j hj hmatch
        (fun k hk => hfirst (k + 1) (Nat.succ_lt_succ hk))
      simp_all [List.find?]

/-! ### Claim theorems -/

/-- The concrete pattern-rule list for the C1 failing input: one rule whose
matcher accepts only the string `"bar"`. -/
def c1Matchers : List PatternMatcher :=
  [{ matcher := fun s => s == "bar", pattern := "bar", message := none }]

/-- C1: the claim states that on a non-empty pattern-rule list with no
matching pattern, `checkRestrictedPatternAndReport` returns zero diagnostics
without throwing.  The code violates this: `Array.prototype.find` yields
`undefined` on no match, the `=== null` guard does not fire, and reading
`matchedPattern.message` throws a `TypeError`.  At the failing input
(source `"foo"`, rules `["bar"]`): the list is non-empty, no matcher
matches, and the check ends in a thrown `TypeError` with no report. -/
theorem c1_pattern_no_match_throws :
    c1Matchers.length = 1 ∧
    c1Matchers.map (fun m => m.matcher "foo") = [false] ∧
    checkRestrictedPatternAndReport c1Matchers "foo" 0 =
      ⟨[], some typeErrorUndefined⟩ :=
  ⟨rfl, rfl, rfl⟩

/-- C2: when some pattern rule matches, `checkRestrictedPatternAndReport`
emits exactly one diagnostic, for the first matching rule in configuration
order — `patternWithCustomMessage` when that rule's message is set, else
`patterns` — at statement level (no `loc` override, attached to the node). -/
theorem c2_first_matching_pattern_reports (matchers : List PatternMatcher)
    (importSource : String) (node : Loc) (i : Nat) (hi : i < matchers.length)
    (hmatch : (matchers.get ⟨i, hi⟩).matcher importSource = true)
    (hfirst : ∀ j (hj : j < i),
      (matchers.get ⟨j, Nat.lt_trans hj hi⟩).matcher importSource = false) :
    checkRestrictedPatternAndReport matchers importSource node =
      ⟨[{ node,
          messageId := if strTruthy (matchers.get ⟨i, hi⟩).message then
            MessageId.patternWithCustomMessage else MessageId.patterns,
          importSource,
          customMessage := (matchers.get ⟨i, hi⟩).message }], none⟩ := by
  have hfind := find_eq_first
    (fun patternMatcher => patternMatcher.matcher importSource) matchers i hi
    hmatch hfirst
  have hne : ¬ matchers.length = 0 := by omega
  simp [checkRestrictedPatternAndReport, hne, hfind]

theorem c2_first_matching_pattern_reports_witness :
    checkRestrictedPatternAndReport
      [{ matcher := fun s => s == "lodash", pattern := "lodash",
         message := some "use local utils" }] "lodash" 3 =
      ⟨[{ node := 3, messageId := MessageId.patternWithCustomMessage,
          importSource := "lodash",
          customMessage := some "use local utils" }], none⟩ :=
  c2_first_matching_pattern_reports
    [{ matcher := fun s => s == "lodash", pattern := "lodash",
       message := some "use local utils" }] "lodash" 3 0 Nat.zero_lt_one rfl
    (fun j hj => absurd hj (Nat.not_lt_zero j))

/-- C3: a source present in the exact-path table under a rule with no
`importNames` yields exactly one whole-path diagnostic
(`pathWithCustomMessage` when the rule's message is set, else `path`) at the
statement node, independently of the occurrence map; a source absent from
the table yields zero diagnostics and no error. -/
theorem c3_whole_path_rule (table : PathTable) (importSource : String)
    (importNames : NameMap) (node : Loc) :
    (∀ msg, tableGet table importSource = some ⟨msg, none⟩ →
      checkRestrictedPathAndReport table importSource importNames node =
        ⟨[{ node,
            messageId := if strTruthy msg then
              MessageId.pathWithCustomMessage else MessageId.path,
            importSource, customMessage := msg }], none⟩) ∧
    (tableGet table importSource = none →
      checkRestrictedPathAndReport table importSource importNames node =
        ⟨[], none⟩) := by
  constructor
  · intro msg h
    simp [checkRestrictedPathAndReport, h]
  · intro h
    simp [checkRestrictedPathAndReport, h]

theorem c3_whole_path_rule_witness :
    checkRestrictedPathAndReport [("fs", ⟨some "use fs/promises", none⟩)] "fs"
        [("default", [⟨4⟩]), ("readFile", [⟨5⟩])] 2 =
      ⟨[{ node := 2, messageId := MessageId.pathWithCustomMessage,
          importSource := "fs",
          customMessage := some "use fs/promises" }], none⟩ ∧
    checkRestrictedPathAndReport [("fs", ⟨some "use fs/promises", none⟩)]
        "path" [] 2 = ⟨[], none⟩ :=
  ⟨(c3_whole_path_rule _ "fs" _ 2).1 (some "use fs/promises") rfl,
   (c3_whole_path_rule _ "path" _ 2).2 rfl⟩

/-- Whether a report belongs to the EverythingRestricted family. -/
def isEverythingReport (r : Report) : Bool :=
  r.messageId == MessageId.everything ||
    r.messageId == MessageId.everythingWithCustomMessage

theorem mem_importNameReports (customMessage : Option String)
    (importNames : NameMap) (importSource : String) (node : Loc)
    (restrictedName : String) (r : Report)
    (hr : r ∈ importNameReports customMessage importNames importSource node
      restrictedName) :
    r.importName = some restrictedName ∧ isEverythingReport r = false := by
  unfold importNameReports at hr
  rcases h : mapGet importNames restrictedName with _ | specs
  · simp [h] at hr
  · rw [h] at hr
    simp only [List.mem_map] at hr
    obtain ⟨s, hs, rfl⟩ := hr
    refine ⟨rfl, ?_⟩
    by_cases hm : strTruthy customMessage <;> simp [isEverythingReport, hm]

/-- C4: for a name-scoped path rule and an occurrence map containing `"*"`,
the check emits the EverythingRestricted(/Custom) report first, located at
the first `"*"` occurrence, carrying the rule's full restricted-name list,
and no other emitted report is of the EverythingRestricted family (later
`"*"` occurrences produce nothing). -/
theorem c4_everything_restricted (table : PathTable) (importSource : String)
    (importNames : NameMap) (node : Loc) (msg : Option String)
    (restricted : List String) (d : SpecifierData) (ds : List SpecifierData)
    (htable : tableGet table importSource = some ⟨msg, some restricted⟩)
    (hstar : mapGet importNames "*" = some (d :: ds)) :
    ∃ rest,
      checkRestrictedPathAndReport table importSource importNames node =
        ⟨everythingReport msg restricted importSource node d :: rest, none⟩ ∧
      (everythingReport msg restricted importSource node d).loc = some d.loc ∧
      (everythingReport msg restricted importSource node d).importNames =
        some restricted ∧
      isEverythingReport (everythingReport msg restricted importSource node d) =
        true ∧
      ∀ r ∈ rest, isEverythingReport r = false := by
  refine ⟨restricted.flatMap
    (importNameReports msg importNames importSource node), ?_, rfl, rfl, ?_, ?_⟩
  · simp [checkRestrictedPathAndReport, htable, hstar]
  · by_cases hm : strTruthy msg <;>
      simp [everythingReport, isEverythingReport, hm]
  · intro r hr
    obtain ⟨a, ha, hra⟩ := List.mem_flatMap.mp hr
    exact (mem_importNameReports msg importNames importSource node a r hra).2

theorem c4_everything_restricted_witness :
    ∃ rest,
      checkRestrictedPathAndReport [("m", ⟨none, some ["a", "b"]⟩)] "m"
          [("*", [⟨3⟩, ⟨4⟩])] 0 =
        ⟨everythingReport none ["a", "b"] "m" 0 ⟨3⟩ :: rest, none⟩ ∧
      (everythingReport none ["a", "b"] "m" 0 ⟨3⟩).loc = some 3 ∧
      (everythingReport none ["a", "b"] "m" 0 ⟨3⟩).importNames =
        some ["a", "b"] ∧
      isEverythingReport (everythingReport none ["a", "b"] "m" 0 ⟨3⟩) = true ∧
      ∀ r ∈ rest, isEverythingReport r = false :=
  c4_everything_restricted [("m", ⟨none, some ["a", "b"]⟩)] "m"
    [("*", [⟨3⟩, ⟨4⟩])] 0 none ["a", "b"] ⟨3⟩ [⟨4⟩] rfl rfl

/-- C10: a path rule whose `importNames` is the empty list is treated as
name-scoped, not whole-module — no report of the `path` or `importName`
family is ever emitted for a matching source, yet a `"*"` occurrence still
yields the one EverythingRestricted report (with the empty name list). -/
theorem c10_empty_name_list_scoped (table : PathTable) (importSource : String)
    (importNames : NameMap) (node : Loc) (msg : Option String)
    (htable : tableGet table importSource = some ⟨msg, some []⟩) :
    (∀ r ∈ (checkRestrictedPathAndReport table importSource importNames
        node).reports,
      r.messageId ≠ MessageId.path ∧
      r.messageId ≠ MessageId.pathWithCustomMessage ∧
      r.messageId ≠ MessageId.importName ∧
      r.messageId ≠ MessageId.importNameWithCustomMessage) ∧
    ∀ d ds, mapGet importNames "*" = some (d :: ds) →
      (checkRestrictedPathAndReport table importSource importNames
        node).reports = [everythingReport msg [] importSource node d] := by
  constructor
  · intro r hr
    rcases hstar : mapGet importNames "*" with _ | l
    · simp [checkRestrictedPathAndReport, htable, hstar] at hr
    · rcases l with _ | ⟨d, ds⟩
      · simp [checkRestrictedPathAndReport, htable, hstar] at hr
      · simp [checkRestrictedPathAndReport, htable, hstar] at hr
        subst hr
        by_cases hm : strTruthy msg <;> simp [everythingReport, hm]
  · intro d ds hstar
    simp [checkRestrictedPathAndReport, htable, hstar]

theorem c10_empty_name_list_scoped_witness :
    (checkRestrictedPathAndReport [("m", ⟨none, some []⟩)] "m"
      [("*", [⟨2⟩])] 0).reports = [everythingReport none [] "m" 0 ⟨2⟩] :=
  (c10_empty_name_list_scoped [("m", ⟨none, some []⟩)] "m" [("*", [⟨2⟩])] 0
    none rfl).2 ⟨2⟩ [] rfl

/-- The key under which `addSpecifier` records an occurrence; `none` when the
`if (name)` guard skips the specifier. -/
def derivedKey (specifier : Specifier) : Option String :=
  match specifierName specifier with
  | some name => if name = "" then none else some name
  | none => none

theorem addSpecifier_eq_derivedKey (m : NameMap) (s : Specifier) :
    addSpecifier m s =
      match derivedKey s with
      | some k => mapPush m k { loc := s.loc }
      | none => m := by
  unfold addSpecifier derivedKey
  rcases specifierName s with _ | name
  · rfl
  · by_cases h : name = "" <;> simp [h]

/-- Specification-side view of the extractor: the occurrences a specifier
list contributes under one key, in encounter order. -/
def occurrencesUnder (specifiers : List Specifier) (n : String) :
    List SpecifierData :=
  (specifiers.filter (fun s => derivedKey s == some n)).map
    (fun s => { loc := s.loc })

theorem mapGet_foldl_addSpecifier (specifiers : List Specifier) (m : NameMap)
    (n : String) :
    mapGet (specifiers.foldl addSpecifier m) n =
      match mapGet m n with
      | some l => some (l ++ occurrencesUnder specifiers n)
      | none =>
        if occurrencesUnder specifiers n = [] then none
        else some (occurrencesUnder specifiers n) := by
  induction specifiers generalizing m with
  | nil =>
    rcases h : mapGet m n with _ | l <;> simp [occurrencesUnder, h]
  | cons s rest ih =>
    rw [List.foldl_cons, addSpecifier_eq_derivedKey]
    cases hk : derivedKey s with
    | none =>
      rw [ih]
      have hb : (derivedKey s == some n) = false := by simp [hk]
      simp [occurrencesUnder, List.filter_cons, hb]
    | some k =>
      by_cases hkn : k = n
      · subst hkn
        rw [ih, mapGet_mapPush]
        have hb : (derivedKey s == some k) = true := by simp [hk]
        rcases hm : mapGet m k with _ | l <;>
          simp [occurrencesUnder, List.filter_cons, hb, hm]
      · rw [ih, mapGet_mapPush]
        have hb : (derivedKey s == some n) = false := by simp [hk, hkn]
        simp [occurrencesUnder, List.filter_cons, hb, hkn]

theorem buildImportNames_values_ne_nil (stmt : Statement) (k : String)
    (l : List SpecifierData)
    (h : mapGet (buildImportNames stmt) k = some l) : l ≠ [] := by
  unfold buildImportNames at h
  by_cases ht : stmt.type = StatementType.exportAllDeclaration
  · rw [if_pos ht] at h
    by_cases hk : ("*" : String) = k
    · simp only [mapGet, if_pos hk] at h
      cases h
      simp
    · simp [mapGet, hk] at h
  · rw [if_neg ht] at h
    rcases hs : stmt.specifiers with _ | specs
    · rw [hs] at h
      simp [mapGet] at h
    · rw [hs, mapGet_foldl_addSpecifier] at h
      simp only [mapGet] at h
      by_cases ho : occurrencesUnder specs k = []
      · rw [if_pos ho] at h
        cases h
      · rw [if_neg ho] at h
        cases h
        exact ho

theorem checkPath_error_eq_none (table : PathTable) (importSource : String)
    (importNames : NameMap) (node : Loc)
    (hwf : ∀ l, mapGet importNames "*" = some l → l ≠ []) :
    (checkRestrictedPathAndReport table importSource importNames node).error =
      none := by
  rcases ht : tableGet table importSource with _ | ⟨msg, restrictedOpt⟩
  · simp [checkRestrictedPathAndReport, ht]
  · rcases restrictedOpt with _ | restricted
    · simp [checkRestrictedPathAndReport, ht]
    · rcases hstar : mapGet importNames "*" with _ | l
      · simp [checkRestrictedPathAndReport, ht, hstar]
      · rcases l with _ | ⟨d, ds⟩
        · exact absurd rfl (hwf [] hstar)
        · simp [checkRestrictedPathAndReport, ht, hstar]

theorem checkPath_reports_nameScoped (table : PathTable)
    (importSource : String) (importNames : NameMap) (node : Loc)
    (msg : Option String) (restricted : List String)
    (htable : tableGet table importSource = some ⟨msg, some restricted⟩)
    (hwf : ∀ l, mapGet importNames "*" = some l → l ≠ []) :
    ∃ star : List Report,
      (∀ r ∈ star, r.importName = none) ∧
      (checkRestrictedPathAndReport table importSource importNames
        node).reports =
        star ++ restricted.flatMap
          (importNameReports msg importNames importSource node) := by
  rcases hstar : mapGet importNames "*" with _ | l
  · exact ⟨[], by simp,
      by simp [checkRestrictedPathAndReport, htable, hstar]⟩
  · rcases l with _ | ⟨d, ds⟩
    · exact absurd rfl (hwf [] hstar)
    · refine ⟨[everythingReport msg restricted importSource node d], ?_, ?_⟩
      · intro r hr
        rw [List.mem_singleton] at hr
        subst hr
        rfl
      · simp [checkRestrictedPathAndReport, htable, hstar]

theorem filter_flatMap_importNameReports (msg : Option String)
    (importNames : NameMap) (importSource : String) (node : Loc)
    (restricted : List String) (n : String) (hnodup : restricted.Nodup)
    (hn : n ∈ restricted) :
    (restricted.flatMap
        (importNameReports msg importNames importSource node)).filter
      (fun r => r.importName == some n) =
      importNameReports msg importNames importSource node n := by
  induction restricted with
  | nil => cases hn
  | cons a rest ih =>
    rw [List.flatMap_cons, List.filter_append]
    rcases List.mem_cons.mp hn with rfl | hmem
    · have hna : n ∉ rest := (List.nodup_cons.mp hnodup).1
      have h1 : (importNameReports msg importNames importSource node n).filter
          (fun r => r.importName == some n) =
          importNameReports msg importNames importSource node n :=
        List.filter_eq_self.mpr fun r hr => by
          simp [(mem_importNameReports msg importNames importSource node n r
            hr).1]
      have h2 : (rest.flatMap
          (importNameReports msg importNames importSource node)).filter
          (fun r => r.importName == some n) = [] :=
        List.filter_eq_nil_iff.mpr fun r hr => by
          obtain ⟨b, hb, hrb⟩ := List.mem_flatMap.mp hr
          have hrn := (mem_importNameReports msg importNames importSource node
            b r hrb).1
          simp only [hrn, beq_iff_eq, Option.some.injEq]
          rintro rfl
          exact hna hb
      rw [h1, h2, List.append_nil]
    · have hne : a ≠ n := by
        rintro rfl
        exact (List.nodup_cons.mp hnodup).1 hmem
      have h1 : (importNameReports msg importNames importSource node a).filter
          (fun r => r.importName == some n) = [] :=
        List.filter_eq_nil_iff.mpr fun r hr => by
          have hrn := (mem_importNameReports msg importNames importSource node
            a r hr).1
          simp only [hrn, beq_iff_eq, Option.some.injEq]
          exact hne
      rw [h1, List.nil_append]
      exact ih (List.nodup_cons.mp hnodup).2 hmem

/-- C5: for a name-scoped path rule and a non-export-all statement, the
extractor records every occurrence of a name (duplicates kept, in encounter
order), and the check emits one NameRestricted(/Custom) report per recorded
occurrence of each restricted name, at each occurrence's own location, in
that same order. -/
theorem c5_per_occurrence_name_reports (table : PathTable) (stmt : Statement)
    (specifiers : List Specifier) (msg : Option String)
    (restricted : List String) (n : String)
    (htype : stmt.type ≠ StatementType.exportAllDeclaration)
    (hspecs : stmt.specifiers = some specifiers)
    (htable : tableGet table (jsTrim stmt.source) = some ⟨msg, some restricted⟩)
    (hnodup : restricted.Nodup) (hn : n ∈ restricted) :
    mapGet (buildImportNames stmt) n =
      (if occurrencesUnder specifiers n = [] then none
       else some (occurrencesUnder specifiers n)) ∧
    ((checkRestrictedPathAndReport table (jsTrim stmt.source)
        (buildImportNames stmt) stmt.loc).reports.filter
      (fun r => r.importName == some n)).map (fun r => r.loc) =
      (occurrencesUnder specifiers n).map (fun d => some d.loc) := by
  have hbuild : buildImportNames stmt = specifiers.foldl addSpecifier [] := by
    unfold buildImportNames
    rw [if_neg htype, hspecs]
  have hget : mapGet (buildImportNames stmt) n =
      (if occurrencesUnder specifiers n = [] then none
       else some (occurrencesUnder specifiers n)) := by
    rw [hbuild, mapGet_foldl_addSpecifier]
    simp [mapGet]
  refine ⟨hget, ?_⟩
  obtain ⟨star, hstarNone, hreports⟩ :=
    checkPath_reports_nameScoped table (jsTrim stmt.source)
      (buildImportNames stmt) stmt.loc msg restricted htable
      (fun l h => buildImportNames_values_ne_nil stmt "*" l h)
  rw [hreports, List.filter_append]
  have hstarFilter : star.filter (fun r => r.importName == some n) = [] :=
    List.filter_eq_nil_iff.mpr fun r hr => by simp [hstarNone r hr]
  rw [hstarFilter, List.nil_append,
    filter_flatMap_importNameReports msg _ _ _ restricted n hnodup hn]
  unfold importNameReports
  rw [hget]
  by_cases ho : occurrencesUnder specifiers n = []
  · rw [if_pos ho]
    simp [ho]
  · rw [if_neg ho]
    simp [List.map_map, Function.comp]

/-- The statement of the C5 witness: `import { x, x } from "mod"` with the
two `x` specifiers at locations 1 and 2. -/
def c5Specs : List Specifier :=
  [⟨SpecifierType.other, some "x", none, 1⟩,
   ⟨SpecifierType.other, some "x", none, 2⟩]

def c5Stmt : Statement :=
  ⟨StatementType.importDeclaration, "mod", 0, some c5Specs, 9⟩

def c5Table : PathTable := [("mod", ⟨none, some ["x"]⟩)]

theorem c5_per_occurrence_name_reports_witness :
    mapGet (buildImportNames c5Stmt) "x" =
      (if occurrencesUnder c5Specs "x" = [] then none
       else some (occurrencesUnder c5Specs "x")) ∧
    ((checkRestrictedPathAndReport c5Table (jsTrim c5Stmt.source)
        (buildImportNames c5Stmt) c5Stmt.loc).reports.filter
      (fun r => r.importName == some "x")).map (fun r => r.loc) =
      (occurrencesUnder c5Specs "x").map (fun d => some d.loc) :=
  c5_per_occurrence_name_reports c5Table c5Stmt c5Specs none ["x"] "x"
    (by decide) rfl rfl (by decide) (by decide)

/-- The source string a path-rule configuration entry is keyed by. -/
def PathRuleConfig.name : PathRuleConfig → String
  | .str n => n
  | .obj n _ _ => n

/-- The table value a path-rule configuration entry produces. -/
def PathRuleConfig.entry : PathRuleConfig → PathRuleEntry
  | .str _ => ⟨none, none⟩
  | .obj _ m i => ⟨m, i⟩

theorem restrictedPathMessages_eq_fold (paths : List PathRuleConfig) :
    restrictedPathMessages paths =
      paths.foldl (fun memo p => objSet memo p.name p.entry) [] := by
  unfold restrictedPathMessages
  congr 1
  funext memo p
  cases p <;> rfl

theorem tableGet_fold_objSet (paths : List PathRuleConfig) (memo : PathTable)
    (n : String) :
    tableGet (paths.foldl (fun memo p => objSet memo p.name p.entry) memo) n =
      match paths.reverse.find? (fun p => p.name == n) with
      | some p => some p.entry
      | none => tableGet memo n := by
  induction paths generalizing memo with
  | nil => simp
  | cons p rest ih =>
    simp only [List.foldl_cons, List.reverse_cons]
    rw [ih, List.find?_append]
    rcases h : rest.reverse.find? (fun q => q.name == n) with _ | q
    · by_cases hp : p.name = n
      · simp [h, Option.or, List.find?, hp, tableGet_objSet]
      · have hb : (p.name == n) = false := by simp [hp]
        simp [h, Option.or, List.find?, hb, tableGet_objSet, hp]
    · simp [h, Option.or]

/-- C6: in the exact-path table, the last configured rule for a given source
wins — looking up any source returns exactly the entry of the latest
configuration element keyed by it (and `none` when no element is). -/
theorem c6_last_path_rule_wins (paths : List PathRuleConfig) (n : String) :
    tableGet (restrictedPathMessages paths) n =
      match paths.reverse.find? (fun p => p.name == n) with
      | some p => some p.entry
      | none => none := by
  rw [restrictedPathMessages_eq_fold, tableGet_fold_objSet]
  rcases paths.reverse.find? (fun p => p.name == n) with _ | q <;> simp [tableGet]

theorem objSet_ne_nil (m : PathTable) (k : String) (v : PathRuleEntry) :
    objSet m k v ≠ [] := by
  cases m with
  | nil => simp [objSet]
  | cons p rest =>
    obtain ⟨q, w⟩ := p
    by_cases h : q = k <;> simp [objSet, h]

theorem foldl_objSet_ne_nil (paths : List PathRuleConfig) (m : PathTable)
    (hm : m ≠ []) :
    paths.foldl (fun memo p => objSet memo p.name p.entry) m ≠ [] := by
  induction paths generalizing m with
  | nil => exact hm
  | cons p rest ih =>
    rw [List.foldl_cons]
    exact ih _ (objSet_ne_nil m p.name p.entry)

theorem restrictedPathMessages_eq_nil_iff (paths : List PathRuleConfig) :
    restrictedPathMessages paths = [] ↔ paths = [] := by
  constructor
  · intro h
    cases paths with
    | nil => rfl
    | cons p rest =>
      rw [restrictedPathMessages_eq_fold, List.foldl_cons] at h
      exact absurd h
        (foldl_objSet_ne_nil rest _ (objSet_ne_nil [] p.name p.entry))
  · rintro rfl
    rfl

/-- C7: a configuration yielding an empty exact-path table and an empty
pattern-matcher list registers no visitor at all (`create` returns no
checker), and a session over any statement stream emits zero diagnostics. -/
theorem c7_empty_config_zero_work (restrictedPaths : List PathRuleConfig)
    (restrictedPatterns : List PatternConfig)
    (compile : String → String → Bool) (statements : List Statement)
    (hpaths : restrictedPathMessages restrictedPaths = [])
    (hpatterns : restrictedPatternMatchers compile restrictedPatterns = []) :
    create restrictedPaths restrictedPatterns compile = none ∧
    runSession restrictedPaths restrictedPatterns compile statements = [] := by
  have h1 : restrictedPaths = [] :=
    (restrictedPathMessages_eq_nil_iff restrictedPaths).mp hpaths
  unfold restrictedPatternMatchers at hpatterns
  have h2 : restrictedPatterns = [] := List.map_eq_nil_iff.mp hpatterns
  subst h1
  subst h2
  exact ⟨by simp [create], by simp [runSession, create]⟩

theorem c7_empty_config_zero_work_witness :
    create [] [] (fun _ _ => false) = none ∧
    runSession [] [] (fun _ _ => false)
      [⟨StatementType.importDeclaration, "fs", 0, some [], 1⟩] = [] :=
  c7_empty_config_zero_work [] [] (fun _ _ => false)
    [⟨StatementType.importDeclaration, "fs", 0, some [], 1⟩] rfl rfl

/-- C8: the extractor derives the name-key of each specifier as the source
does — default-binding → `"default"`, namespace-binding → `"*"`, named with
an explicit imported name → that name, otherwise the local name — and an
export-all statement yields exactly one `"*"` occurrence at the star
token. -/
theorem c8_name_key_derivation (src : String) (nodeLoc specLoc starLoc : Loc)
    (imp lcl : Option String) :
    buildImportNames ⟨StatementType.importDeclaration, src, nodeLoc,
        some [⟨SpecifierType.importDefaultSpecifier, imp, lcl, specLoc⟩],
        starLoc⟩ = [("default", [⟨specLoc⟩])] ∧
    buildImportNames ⟨StatementType.importDeclaration, src, nodeLoc,
        some [⟨SpecifierType.importNamespaceSpecifier, imp, lcl, specLoc⟩],
        starLoc⟩ = [("*", [⟨specLoc⟩])] ∧
    (∀ n, n ≠ "" → buildImportNames ⟨StatementType.importDeclaration, src,
        nodeLoc, some [⟨SpecifierType.other, some n, lcl, specLoc⟩],
        starLoc⟩ = [(n, [⟨specLoc⟩])]) ∧
    (∀ l, l ≠ "" → buildImportNames ⟨StatementType.importDeclaration, src,
        nodeLoc, some [⟨SpecifierType.other, none, some l, specLoc⟩],
        starLoc⟩ = [(l, [⟨specLoc⟩])]) ∧
    (∀ stmt : Statement, stmt.type = StatementType.exportAllDeclaration →
      buildImportNames stmt = [("*", [⟨stmt.starTokenLoc⟩])]) := by
  refine ⟨?_, ?_, ?_, ?_, ?_⟩
  · simp [buildImportNames, addSpecifier, specifierName, mapPush]
  · simp [buildImportNames, addSpecifier, specifierName, mapPush]
  · intro n hn
    simp [buildImportNames, addSpecifier, specifierName, mapPush, hn]
  · intro l hl
    simp [buildImportNames, addSpecifier, specifierName, mapPush, hl]
  · intro stmt h
    simp [buildImportNames, h]

theorem c8_name_key_derivation_witness :
    buildImportNames ⟨StatementType.importDeclaration, "m", 0,
        some [⟨SpecifierType.importDefaultSpecifier, none, none, 1⟩], 2⟩ =
      [("default", [⟨1⟩])] ∧
    buildImportNames ⟨StatementType.importDeclaration, "m", 0,
        some [⟨SpecifierType.other, some "x", none, 1⟩], 2⟩ =
      [("x", [⟨1⟩])] ∧
    buildImportNames ⟨StatementType.exportAllDeclaration, "m", 0, none, 2⟩ =
      [("*", [⟨2⟩])] :=
  ⟨(c8_name_key_derivation "m" 0 1 2 none none).1,
   (c8_name_key_derivation "m" 0 1 2 none none).2.2.1 "x" (by decide),
   (c8_name_key_derivation "m" 0 1 2 none none).2.2.2.2
     ⟨StatementType.exportAllDeclaration, "m", 0, none, 2⟩ rfl⟩

/-- C9: for every statement the path check and the pattern check both run
and `checkNode`'s reports are exactly the path reports followed by the
pattern reports (never merged or deduplicated); in particular a source
matching a whole-module path rule and some pattern rule yields two
reports. -/
theorem c9_independent_checks (table : PathTable)
    (matchers : List PatternMatcher) (stmt : Statement) :
    (checkNode table matchers stmt).reports =
      (checkRestrictedPathAndReport table (jsTrim stmt.source)
        (buildImportNames stmt) stmt.loc).reports ++
      (checkRestrictedPatternAndReport matchers (jsTrim stmt.source)
        stmt.loc).reports ∧
    (∀ msg, tableGet table (jsTrim stmt.source) = some ⟨msg, none⟩ →
      (∃ m ∈ matchers, m.matcher (jsTrim stmt.source) = true) →
      (checkNode table matchers stmt).reports.length = 2) := by
  have herr : (checkRestrictedPathAndReport table (jsTrim stmt.source)
      (buildImportNames stmt) stmt.loc).error = none :=
    checkPath_error_eq_none _ _ _ _
      (fun l h => buildImportNames_values_ne_nil stmt "*" l h)
  constructor
  · simp [checkNode, herr]
  · intro msg htable hex
    rcases hfind : matchers.find?
        (fun patternMatcher => patternMatcher.matcher (jsTrim stmt.source))
      with _ | m0
    · obtain ⟨m, hm, hmatch⟩ := hex
      have := List.find?_eq_none.mp hfind m hm
      simp [hmatch] at this
    · have hne : ¬ matchers.length = 0 := by
        obtain ⟨m, hm, _⟩ := hex
        cases matchers
        · cases hm
        · simp
      simp [checkNode, herr, checkRestrictedPathAndReport, htable,
        checkRestrictedPatternAndReport, hne, hfind]

def c9Table : PathTable := [("a", ⟨none, none⟩)]

def c9Matchers : List PatternMatcher :=
  [{ matcher := fun s => s == "a", pattern := "a", message := none }]

def c9Stmt : Statement :=
  ⟨StatementType.importDeclaration, "a", 0, some [], 1⟩

theorem c9_independent_checks_witness :
    (checkNode c9Table c9Matchers c9Stmt).reports =
      (checkRestrictedPathAndReport c9Table (jsTrim c9Stmt.source)
        (buildImportNames c9Stmt) c9Stmt.loc).reports ++
      (checkRestrictedPatternAndReport c9Matchers (jsTrim c9Stmt.source)
        c9Stmt.loc).reports ∧
    (checkNode c9Table c9Matchers c9Stmt).reports.length = 2 :=
  ⟨(c9_independent_checks c9Table c9Matchers c9Stmt).1,
   (c9_independent_checks c9Table c9Matchers c9Stmt).2 none rfl
     ⟨{ matcher := fun s => s == "a", pattern := "a", message := none },
       List.mem_cons_self _ _, rfl⟩⟩

end NoRestrictedImports
